import Mathlib

set_option maxHeartbeats 1000000
set_option linter.unusedVariables false
set_option linter.unnecessarySeqFocus false

/-
Verification development for the Slack message-relay bridge (`app.py`).

The Python source is shallowly embedded: every remote Slack / HTTP call is
replaced by an oracle (`Client`, `RehostEnv`) that fixes the outcome of that
call, mutable module-level dictionaries become an explicit `St` record that is
threaded through the functions, and every function additionally returns the
ordered list of externally visible actions (`Act`) it performed, so that
temporal properties ("posted before unfurling", "no second remote call",
"temporary file deleted on every path") become statements about that trace.
-/

namespace MessageGather

/-- Python truthiness of an optional string: `None` and the empty string are falsy. -/
def pyTruthy : Option String → Bool
  | none => false
  | some s => !(s == "")

/-- Rendering of an optional value inside a Python f-string: `None` prints as "None". -/
def pyStr : Option String → String
  | none => "None"
  | some s => s

/-- Python `a or b` on two optional strings (`None` and `""` are falsy). -/
def pyOr (a b : Option String) : Option String :=
  if pyTruthy a then a else b

/-- Python slice `s[-n:]`: the last `n` characters of `s` (all of `s` when shorter). -/
def lastChars (s : String) (n : Nat) : String :=
  String.mk (s.data.drop (s.data.length - n))

/-- Boolean infix test on character lists, standing in for the Python membership test of one string inside another. -/
def infixOf (needle : List Char) : List Char → Bool
  | [] => needle.isEmpty
  | c :: t => needle.isPrefixOf (c :: t) || infixOf needle t

/-- The `users_info` payload fields the program reads: `real_name` and
`profile.image_48`, each possibly absent. -/
structure UserInfo where
  real_name : Option String
  image_48 : Option String
deriving DecidableEq, Repr

/-- The fields of a Slack file object read by the program. -/
structure FileInfo where
  id : Option String
  name : Option String
  mimetype : Option String
  url_private : Option String
  permalink : Option String
deriving DecidableEq, Repr

/-- The fields of an inbound `message` event read by `relay`. Keys that Python
accesses with `.get` are optional; `channel` and `ts` are accessed with `[]`. -/
structure Event where
  channel : String
  ts : String
  channel_type : Option String
  thread_ts : Option String
  user : Option String
  text : Option String
  subtype : Option String
  username : Option String
  files : Option (List FileInfo)
deriving DecidableEq, Repr

/-- Elements of a `context` Block Kit block. -/
inductive CtxElem where
  | image (image_url alt_text : String)
  | plain_text (text : String)
deriving DecidableEq, Repr

/-- A Block Kit block as built by `build_unfurl_block`: a `context` block or a
`section` block with mrkdwn text. -/
inductive Block where
  | context (elements : List CtxElem)
  | sect (text : String)
deriving DecidableEq, Repr

/-- Outcome of a `conversations_info` call: success, a definitive
`channel_not_found` SlackApiError, or any other SlackApiError. -/
inductive ChanRes where
  | ok (name : String)
  | notFound
  | otherErr
deriving DecidableEq, Repr

/-- Outcome of `files_upload_v2`: an exception, or a response whose `file`
field is present or absent/falsy. -/
inductive UploadRes where
  | exn
  | resp (file : Option FileInfo)
deriving DecidableEq, Repr

/-- Oracle for the two remote calls of one rehoster invocation:
`httpGet = none` models `requests.get` raising, `some n` a response with
status code `n`; `upload` models the `files_upload_v2` outcome. -/
structure RehostEnv where
  httpGet : Option Nat
  upload : UploadRes

/-- Externally visible actions, recorded in order in a trace. -/
inductive Act where
  | getPermalink (channel ts : String)
  | conversationsInfo (channel : String)
  | usersInfo (user : String)
  | postMessage (channel text : String) (thread_ts : Option String)
      (attachments : Option (List Block)) (result : Option String)
  | chatUnfurl (channel ts link : String) (blocks : List Block)
  | tmpCreate
  | httpGet (url : String)
  | filesUpload (filename : String)
  | tmpDelete
deriving DecidableEq, Repr

/-- Oracle fixing the outcome of every remote call the program can make.
`none` results model the corresponding Python call raising an exception. -/
structure Client where
  getPermalink : String → String → Option String
  conversationsInfo : String → ChanRes
  usersInfo : String → Option UserInfo
  postMessage : String → String → Option String → Option (List Block) → Option String
  rehostEnv : FileInfo → RehostEnv

/-- The module-level mutable dictionaries of `app.py`: `relay_map`,
`channel_name_cache` and `user_info_cache`, as association lists where the
most recent binding is first. -/
structure St where
  relay_map : List (String × String)
  channel_name_cache : List (String × String)
  user_info_cache : List (String × UserInfo)
deriving DecidableEq, Repr

/-- Embedding of `get_channel_name`: cached name, else `conversations_info`;
`channel_not_found` caches an `external-` fallback built from the last six
characters of the id; any other error returns `"unknown"` uncached. -/
def get_channel_name (c : Client) (st : St) (ch_id : String) : String × St × List Act :=
  match st.channel_name_cache.lookup ch_id with
  | some n => (n, st, [])
  | none =>
    match c.conversationsInfo ch_id with
    | .ok name =>
        (name, { st with channel_name_cache := (ch_id, name) :: st.channel_name_cache },
          [.conversationsInfo ch_id])
    | .notFound =>
        ("external-" ++ lastChars ch_id 6,
          { st with channel_name_cache :=
              (ch_id, "external-" ++ lastChars ch_id 6) :: st.channel_name_cache },
          [.conversationsInfo ch_id])
    | .otherErr => ("unknown", st, [.conversationsInfo ch_id])

/-- Embedding of `get_user_info`: cached profile, else `users_info`; a
`SlackApiError` returns a fallback profile without caching it. -/
def get_user_info (c : Client) (st : St) (user_id : String) : UserInfo × St × List Act :=
  match st.user_info_cache.lookup user_id with
  | some u => (u, st, [])
  | none =>
    match c.usersInfo user_id with
    | some u =>
        (u, { st with user_info_cache := (user_id, u) :: st.user_info_cache },
          [.usersInfo user_id])
    | none =>
        ({ real_name := some "Unknown User", image_48 := some "" }, st, [.usersInfo user_id])

/-- Embedding of `make_payload` (the `ch_type` parameter is unused in the source). -/
def make_payload (c : Client) (st : St) (ch_id ch_type permalink : String) :
    String × St × List Act :=
  let r := get_channel_name c st ch_id
  ("#" ++ r.1 ++ " を <" ++ permalink ++ "|元投稿リンクはこちら>", r.2.1, r.2.2)

/-- Character class `[A-Z0-9]` of the mention regular expression. -/
def isUpperDigit (ch : Char) : Bool :=
  ('A' ≤ ch && ch ≤ 'Z') || ('0' ≤ ch && ch ≤ '9')

/-- Match of the regular expression `<@([A-Z0-9]+)>` at the head of the list:
returns the captured id characters and the remainder after the match. -/
def mentionSpan : List Char → Option (List Char × List Char)
  | c1 :: c2 :: rest =>
    if c1 = '<' ∧ c2 = '@' then
      match rest.takeWhile isUpperDigit, rest.dropWhile isUpperDigit with
      | [], _ => none
      | _ :: _, c3 :: tail => if c3 = '>' then some (rest.takeWhile isUpperDigit, tail) else none
      | _, _ => none
    else none
  | _ => none

/-- Fuelled left-to-right scan of the `re.sub` mention substitution:
at each position, replace a match with `"@" + real_name` (default `"Unknown"`)
via `get_user_info`, otherwise copy one character. -/
def replaceMentionsAux (c : Client) : Nat → List Char → St → List Char × St × List Act
  | 0, cs, st => (cs, st, [])
  | _ + 1, [], st => ([], st, [])
  | n + 1, ch :: rest, st =>
    match mentionSpan (ch :: rest) with
    | some (ids, tail) =>
      let r1 := get_user_info c st (String.mk ids)
      let r2 := replaceMentionsAux c n tail r1.2.1
      ('@' :: (r1.1.real_name.getD "Unknown").data ++ r2.1, r2.2.1, r1.2.2 ++ r2.2.2)
    | none =>
      let r := replaceMentionsAux c n rest st
      (ch :: r.1, r.2.1, r.2.2)

/-- The mention substitution pass of `build_unfurl_block` (fuel is the input
length, which the scan never exceeds). -/
def replaceMentions (c : Client) (cs : List Char) (st : St) : List Char × St × List Act :=
  replaceMentionsAux c cs.length cs st

/-- Embedding of `download_and_reupload_file`: requires a truthy private URL,
creates a temporary file, downloads with the bot token, re-uploads to the
timeline channel, and deletes the temporary file on every exit path. -/
def download_and_reupload_file (env : RehostEnv) (file_info : FileInfo) :
    Option FileInfo × List Act :=
  if pyTruthy file_info.url_private then
    let url := pyStr file_info.url_private
    let file_name := file_info.name.getD "unknown_file"
    match env.httpGet with
    | none => (none, [.tmpCreate, .httpGet url, .tmpDelete])
    | some status =>
      if status ≠ 200 then (none, [.tmpCreate, .httpGet url, .tmpDelete])
      else
        match env.upload with
        | .exn => (none, [.tmpCreate, .httpGet url, .filesUpload file_name, .tmpDelete])
        | .resp none => (none, [.tmpCreate, .httpGet url, .filesUpload file_name, .tmpDelete])
        | .resp (some f) => (some f, [.tmpCreate, .httpGet url, .filesUpload file_name, .tmpDelete])
  else (none, [])

/-- Per-attachment loop of `build_unfurl_block` (it never touches the caches,
so it returns only blocks and a trace). -/
def buildFileBlocks (c : Client) (is_private logger : Bool) :
    List FileInfo → List Block × List Act
  | [] => ([], [])
  | f :: fs =>
    let file_name := f.name.getD "ファイル"
    let file_type := f.mimetype.getD ""
    let this :=
      if "image/".data.isPrefixOf file_type.data then
        if is_private && logger then
          let r := download_and_reupload_file (c.rehostEnv f) f
          match r.1 with
          | some rf =>
            ([Block.sect ("📷 *画像が添付されています*: <" ++ pyStr rf.permalink ++ "|" ++
                file_name ++ ">")], r.2)
          | none =>
            if pyTruthy f.url_private then
              ([Block.sect ("📷 *画像が添付されています* (プライベートチャンネル): <" ++
                  f.url_private.getD "" ++ "|" ++ file_name ++ ">")], r.2)
            else
              ([Block.sect "📷 *画像が添付されています* (表示できません)"], r.2)
        else
          ([Block.sect ("📷 *画像が添付されています*: <" ++ pyStr (pyOr f.permalink f.url_private) ++
              "|" ++ file_name ++ ">")], [])
      else
        ([Block.sect ("📎 *添付ファイル:* <" ++ pyStr f.url_private ++ "|" ++ file_name ++ ">")], [])
    let rest := buildFileBlocks c is_private logger fs
    (this.1 ++ rest.1, this.2 ++ rest.2)

/-- Author context block of `build_unfurl_block`: avatar plus name when an
avatar URL is available, name only otherwise, and a placeholder when the event
carries no (truthy) author id. -/
def authorBlock (c : Client) (st : St) (event : Event) : List Block × St × List Act :=
  if pyTruthy event.user then
    let r := get_user_info c st (event.user.getD "")
    let display_name := r.1.real_name.getD "Unknown User"
    let image_url := r.1.image_48.getD ""
    if image_url ≠ "" then
      ([Block.context [.image image_url display_name, .plain_text (display_name ++ " の投稿")]],
        r.2.1, r.2.2)
    else
      ([Block.context [.plain_text (display_name ++ " の投稿")]], r.2.1, r.2.2)
  else
    ([Block.context [.plain_text "誰かの投稿"]], st, [])

/-- Embedding of `build_unfurl_block`: author context block, body section block
with mentions resolved, channel-label context block, then (only when the event
has files and `include_images` is true) the per-attachment blocks. -/
def build_unfurl_block (c : Client) (st : St) (event : Event)
    (include_images logger : Bool) : List Block × St × List Act :=
  let a := authorBlock c st event
  let text0 := if pyTruthy event.text then event.text.getD "" else "(本文なし)"
  let rt := replaceMentions c text0.data a.2.1
  let rc := get_channel_name c rt.2.1 event.channel
  let is_private := event.channel_type == some "group"
  let chBlock :=
    if is_private then Block.context [.plain_text ("プライベートチャンネル: " ++ rc.1)]
    else Block.context [.plain_text ("チャンネル: #" ++ rc.1)]
  let rf :=
    if event.files.isSome && include_images then
      buildFileBlocks c is_private logger (event.files.getD [])
    else ([], [])
  (a.1 ++ [Block.sect (String.mk rt.1), chBlock] ++ rf.1, rc.2.1,
    a.2.2 ++ rt.2.2 ++ rc.2.2 ++ rf.2)

/-- The Slackbot private-file-share announcement pattern checked by `relay`. -/
def privateShareText (s : String) : Bool :=
  infixOf "さんがあなたのプライベートファイル".data s.data

/-- Embedding of the `relay` message-event handler. The returned trace lists
the remote calls in program order; the returned state reflects every write to
`relay_map` and the two caches. -/
def relay (ALL_TIMELINE : String) (c : Client) (st : St) (event : Event) : St × List Act :=
  if (event.subtype = some "bot_message" ∧ event.username ≠ some "Slackbot") ∨
      event.channel = ALL_TIMELINE then
    (st, [])
  else
    match c.getPermalink event.channel event.ts with
    | none => (st, [.getPermalink event.channel event.ts])
    | some link =>
      if event.subtype = some "bot_message" ∧ event.username = some "Slackbot" ∧
          privateShareText (event.text.getD "") = true then
        (st, [.getPermalink event.channel event.ts])
      else
        let rp := make_payload c st event.channel (event.channel_type.getD "channel") link
        let payload := rp.1
        let st1 := rp.2.1
        let pre := Act.getPermalink event.channel event.ts :: rp.2.2
        let is_private := event.channel_type == some "group"
        if event.thread_ts = none ∨ event.thread_ts = some event.ts then
          if is_private then
            let rb := build_unfurl_block c st1 event true true
            match c.postMessage ALL_TIMELINE payload none (some rb.1) with
            | some newts =>
              ({ rb.2.1 with relay_map := (event.ts, newts) :: rb.2.1.relay_map },
                pre ++ rb.2.2 ++
                  [.postMessage ALL_TIMELINE payload none (some rb.1) (some newts)])
            | none =>
              (rb.2.1, pre ++ rb.2.2 ++ [.postMessage ALL_TIMELINE payload none (some rb.1) none])
          else
            match c.postMessage ALL_TIMELINE payload none none with
            | none => (st1, pre ++ [.postMessage ALL_TIMELINE payload none none none])
            | some newts =>
              let st2 := { st1 with relay_map := (event.ts, newts) :: st1.relay_map }
              let rb := build_unfurl_block c st2 event false false
              (rb.2.1,
                pre ++ [.postMessage ALL_TIMELINE payload none none (some newts)] ++ rb.2.2 ++
                  [.chatUnfurl ALL_TIMELINE newts link rb.1])
        else
          match event.thread_ts with
          | none => (st1, pre)
          | some tts =>
            match st1.relay_map.lookup tts with
            | none => (st1, pre)
            | some root_ts =>
              if is_private then
                let rb := build_unfurl_block c st1 event true true
                (rb.2.1,
                  pre ++ rb.2.2 ++
                    [.postMessage ALL_TIMELINE payload (some root_ts) (some rb.1)
                      (c.postMessage ALL_TIMELINE payload (some root_ts) (some rb.1))])
              else
                match c.postMessage ALL_TIMELINE payload (some root_ts) none with
                | none =>
                  (st1, pre ++ [.postMessage ALL_TIMELINE payload (some root_ts) none none])
                | some newts =>
                  let rb := build_unfurl_block c st1 event false false
                  (rb.2.1,
                    pre ++ [.postMessage ALL_TIMELINE payload (some root_ts) none (some newts)] ++
                      rb.2.2 ++ [.chatUnfurl ALL_TIMELINE newts link rb.1])

/-- Recognizer of a successful destination post in a trace. -/
def isOkPost : Act → Bool
  | .postMessage _ _ _ _ (some _) => true
  | _ => false

/-- Recognizer of any destination-post attempt in a trace. -/
def isPost : Act → Bool
  | .postMessage _ _ _ _ _ => true
  | _ => false

/-- Recognizer of directory lookups (`conversations_info` / `users_info`). -/
def isDirAct : Act → Bool
  | .conversationsInfo _ => true
  | .usersInfo _ => true
  | _ => false

/-- Recognizer of rehoster activity (temp file, download, upload). -/
def isRehostAct : Act → Bool
  | .tmpCreate => true
  | .httpGet _ => true
  | .filesUpload _ => true
  | .tmpDelete => true
  | _ => false

/-- Recognizer of mention tokens, mirroring the scan of `replaceMentions`. -/
def noMention : List Char → Bool
  | [] => true
  | ch :: rest => (mentionSpan (ch :: rest)).isNone && noMention rest

/-- Empty initial state: all three module-level dictionaries start empty. -/
def st0 : St := ⟨[], [], []⟩

/-- A client on which every remote call succeeds with fixed answers. -/
def cOk : Client where
  getPermalink := fun _ _ => some "https://slack.example/p1"
  conversationsInfo := fun _ => .ok "general"
  usersInfo := fun _ => some ⟨some "Alice", some ""⟩
  postMessage := fun _ _ _ _ => some "999.000"
  rehostEnv := fun _ => ⟨some 200, .resp none⟩

/-- A client whose `users_info` always raises a `SlackApiError`. -/
def cErrU : Client :=
  { cOk with usersInfo := fun _ => none }

/-- A public-channel root message event with no attachments. -/
def eRootPub : Event where
  channel := "C1"
  ts := "100.1"
  channel_type := some "channel"
  thread_ts := none
  user := some "U1"
  text := some "hello"
  subtype := none
  username := none
  files := none

/-- An event originating in the destination timeline channel `"TL"`. -/
def eLoop : Event :=
  { eRootPub with channel := "TL" }

/-- A thread-reply event whose root timestamp is unmapped. -/
def eReply : Event :=
  { eRootPub with ts := "100.2", thread_ts := some "99.9" }

/-- A Slackbot private-file-share announcement event. -/
def eSlackbot : Event :=
  { eRootPub with
      subtype := some "bot_message"
      username := some "Slackbot"
      text := some "XさんがあなたのプライベートファイルYを共有しました" }

/-- A non-image attachment. -/
def fPlain : FileInfo where
  id := some "F1"
  name := some "notes.txt"
  mimetype := some "text/plain"
  url_private := some "https://files.example/notes"
  permalink := some "https://perma.example/notes"

/-- An image attachment with a private URL and a permalink. -/
def fImage : FileInfo where
  id := some "F2"
  name := some "pic.png"
  mimetype := some "image/png"
  url_private := some "https://files.example/pic"
  permalink := some "https://perma.example/pic"

/-- A public-channel root event carrying one non-image attachment. -/
def eFilesPub : Event :=
  { eRootPub with files := some [fPlain] }

/-- A private-channel root event carrying one image attachment. -/
def ePrivImg : Event :=
  { eRootPub with channel_type := some "group", files := some [fImage] }

/-- Dropping a prefix by a predicate never lengthens a list. -/
theorem dropWhile_length_le (p : Char → Bool) :
    ∀ l : List Char, (l.dropWhile p).length ≤ l.length := by
  intro l
  induction l with
  | nil => simp [List.dropWhile]
  | cons a t ih =>
    by_cases h : p a = true <;> simp [List.dropWhile, h] <;> omega

/-- A mention match consumes at least one character. -/
theorem mentionSpan_length {cs ids tail : List Char}
    (h : mentionSpan cs = some (ids, tail)) : tail.length < cs.length := by
  unfold mentionSpan at h
  split at h
  · rename_i c1 c2 rest
    split at h
    · split at h
      · simp at h
      · rename_i x xs c3 tail' heq1 heq2
        split at h
        · simp only [Option.some.injEq, Prod.mk.injEq] at h
          obtain ⟨h1, h2⟩ := h
          subst h2
          have hle := dropWhile_length_le isUpperDigit rest
          rw [heq2] at hle
          simp only [List.length_cons] at hle ⊢
          omega
        · simp at h
      · simp at h
    · simp at h
  · simp at h

/-- The mention scan is insensitive to the exact fuel as long as the fuel
covers the input length. -/
theorem rmAux_fuel (c : Client) : ∀ n m (cs : List Char) (st : St), cs.length ≤ n →
    cs.length ≤ m → replaceMentionsAux c n cs st = replaceMentionsAux c m cs st := by
  intro n
  induction n with
  | zero =>
    intro m cs st hn hm
    have hcs : cs = [] := by cases cs <;> simp_all
    subst hcs
    cases m <;> simp [replaceMentionsAux]
  | succ n ih =>
    intro m cs st hn hm
    cases cs with
    | nil => cases m <;> simp [replaceMentionsAux]
    | cons ch rest =>
      cases m with
      | zero => simp at hm
      | succ m' =>
        simp only [replaceMentionsAux]
        cases hspan : mentionSpan (ch :: rest) with
        | none =>
          have : replaceMentionsAux c n rest st = replaceMentionsAux c m' rest st := by
            apply ih
            · simpa using Nat.lt_succ_iff.mp (by simpa using Nat.lt_of_lt_of_le (by simp) hn)
            · simpa using Nat.lt_succ_iff.mp (by simpa using Nat.lt_of_lt_of_le (by simp) hm)
          simp [hspan, this]
        | some p =>
          obtain ⟨ids, tail⟩ := p
          have hlen := mentionSpan_length hspan
          have hn' : tail.length ≤ n := by simp at hlen hn ⊢; omega
          have hm' : tail.length ≤ m' := by simp at hlen hm ⊢; omega
          have : ∀ s, replaceMentionsAux c n tail s = replaceMentionsAux c m' tail s :=
            fun s => ih m' tail s hn' hm'
          simp [hspan, this]

/-- The channel-name lookup never touches `relay_map`. -/
theorem gcn_relay_map (c : Client) (st : St) (i : String) :
    (get_channel_name c st i).2.1.relay_map = st.relay_map := by
  unfold get_channel_name
  split
  · rfl
  · split <;> rfl

/-- The channel-name lookup never touches the user cache. -/
theorem gcn_user_cache (c : Client) (st : St) (i : String) :
    (get_channel_name c st i).2.1.user_info_cache = st.user_info_cache := by
  unfold get_channel_name
  split
  · rfl
  · split <;> rfl

/-- The user lookup never touches `relay_map`. -/
theorem gui_relay_map (c : Client) (st : St) (i : String) :
    (get_user_info c st i).2.1.relay_map = st.relay_map := by
  unfold get_user_info
  split
  · rfl
  · split <;> rfl

/-- The user lookup never touches the channel cache. -/
theorem gui_channel_cache (c : Client) (st : St) (i : String) :
    (get_user_info c st i).2.1.channel_name_cache = st.channel_name_cache := by
  unfold get_user_info
  split
  · rfl
  · split <;> rfl

/-- The mention scan never touches `relay_map`. -/
theorem rmAux_relay_map (c : Client) : ∀ n (cs : List Char) (st : St),
    (replaceMentionsAux c n cs st).2.1.relay_map = st.relay_map := by
  intro n
  induction n with
  | zero => intro cs st; rfl
  | succ n ih =>
    intro cs st
    cases cs with
    | nil => rfl
    | cons ch rest =>
      simp only [replaceMentionsAux]
      cases hspan : mentionSpan (ch :: rest) with
      | none => simpa [hspan] using ih rest st
      | some p =>
        obtain ⟨ids, tail⟩ := p
        simp only [hspan]
        rw [ih, gui_relay_map]

/-- `replaceMentions` never touches `relay_map`. -/
theorem rm_relay_map (c : Client) (cs : List Char) (st : St) :
    (replaceMentions c cs st).2.1.relay_map = st.relay_map :=
  rmAux_relay_map c cs.length cs st

/-- `make_payload` never touches `relay_map`. -/
theorem mp_relay_map (c : Client) (st : St) (a b p : String) :
    (make_payload c st a b p).2.1.relay_map = st.relay_map := by
  unfold make_payload
  exact gcn_relay_map c st a

/-- The author block never touches `relay_map`. -/
theorem author_relay_map (c : Client) (st : St) (event : Event) :
    (authorBlock c st event).2.1.relay_map = st.relay_map := by
  unfold authorBlock
  split
  · dsimp only
    split
    · exact gui_relay_map c st _
    · exact gui_relay_map c st _
  · rfl

/-- `build_unfurl_block` never touches `relay_map`. -/
theorem build_relay_map (c : Client) (st : St) (event : Event) (ii lg : Bool) :
    (build_unfurl_block c st event ii lg).2.1.relay_map = st.relay_map := by
  unfold build_unfurl_block
  dsimp only
  rw [gcn_relay_map, rm_relay_map, author_relay_map]

/-- A successful post is in particular a post attempt. -/
theorem any_okPost_of_any_post {l : List Act} (h : l.any isPost = false) :
    l.any isOkPost = false := by
  simp only [List.any_eq_false] at h ⊢
  intro a ha
  have := h a ha
  cases a <;> simp_all [isPost, isOkPost]

/-- The channel-name lookup performs no post. -/
theorem gcn_no_post (c : Client) (st : St) (i : String) :
    ((get_channel_name c st i).2.2).any isPost = false := by
  unfold get_channel_name
  split
  · rfl
  · split <;> rfl

/-- The channel-name lookup performs no rehoster activity. -/
theorem gcn_no_rehost (c : Client) (st : St) (i : String) :
    ((get_channel_name c st i).2.2).any isRehostAct = false := by
  unfold get_channel_name
  split
  · rfl
  · split <;> rfl

/-- The user lookup performs no post. -/
theorem gui_no_post (c : Client) (st : St) (i : String) :
    ((get_user_info c st i).2.2).any isPost = false := by
  unfold get_user_info
  split
  · rfl
  · split <;> rfl

/-- The user lookup performs no rehoster activity. -/
theorem gui_no_rehost (c : Client) (st : St) (i : String) :
    ((get_user_info c st i).2.2).any isRehostAct = false := by
  unfold get_user_info
  split
  · rfl
  · split <;> rfl

/-- The author block performs no post. -/
theorem author_no_post (c : Client) (st : St) (event : Event) :
    ((authorBlock c st event).2.2).any isPost = false := by
  unfold authorBlock
  split
  · dsimp only
    split
    · exact gui_no_post c st _
    · exact gui_no_post c st _
  · rfl

/-- The author block performs no rehoster activity. -/
theorem author_no_rehost (c : Client) (st : St) (event : Event) :
    ((authorBlock c st event).2.2).any isRehostAct = false := by
  unfold authorBlock
  split
  · dsimp only
    split
    · exact gui_no_rehost c st _
    · exact gui_no_rehost c st _
  · rfl

/-- The mention scan performs no post. -/
theorem rmAux_no_post (c : Client) : ∀ n (cs : List Char) (st : St),
    ((replaceMentionsAux c n cs st).2.2).any isPost = false := by
  intro n
  induction n with
  | zero => intro cs st; rfl
  | succ n ih =>
    intro cs st
    cases cs with
    | nil => rfl
    | cons ch rest =>
      simp only [replaceMentionsAux]
      cases hspan : mentionSpan (ch :: rest) with
      | none => simpa [hspan] using ih rest st
      | some p =>
        obtain ⟨ids, tail⟩ := p
        simp [hspan, List.any_append, gui_no_post, ih]

/-- The mention scan performs no rehoster activity. -/
theorem rmAux_no_rehost (c : Client) : ∀ n (cs : List Char) (st : St),
    ((replaceMentionsAux c n cs st).2.2).any isRehostAct = false := by
  intro n
  induction n with
  | zero => intro cs st; rfl
  | succ n ih =>
    intro cs st
    cases cs with
    | nil => rfl
    | cons ch rest =>
      simp only [replaceMentionsAux]
      cases hspan : mentionSpan (ch :: rest) with
      | none => simpa [hspan] using ih rest st
      | some p =>
        obtain ⟨ids, tail⟩ := p
        simp [hspan, List.any_append, gui_no_rehost, ih]

/-- `replaceMentions` performs no post. -/
theorem rm_no_post (c : Client) (cs : List Char) (st : St) :
    ((replaceMentions c cs st).2.2).any isPost = false :=
  rmAux_no_post c cs.length cs st

/-- `replaceMentions` performs no rehoster activity. -/
theorem rm_no_rehost (c : Client) (cs : List Char) (st : St) :
    ((replaceMentions c cs st).2.2).any isRehostAct = false :=
  rmAux_no_rehost c cs.length cs st

/-- `make_payload` performs no post. -/
theorem mp_no_post (c : Client) (st : St) (a b p : String) :
    ((make_payload c st a b p).2.2).any isPost = false :=
  gcn_no_post c st a

/-- `make_payload` performs no rehoster activity. -/
theorem mp_no_rehost (c : Client) (st : St) (a b p : String) :
    ((make_payload c st a b p).2.2).any isRehostAct = false :=
  gcn_no_rehost c st a

/-- The rehoster performs no post. -/
theorem download_no_post (env : RehostEnv) (f : FileInfo) :
    ((download_and_reupload_file env f).2).any isPost = false := by
  unfold download_and_reupload_file
  repeat' split
  all_goals rfl

/-- The per-attachment loop performs no post. -/
theorem bfb_no_post (c : Client) (ip lg : Bool) : ∀ fs : List FileInfo,
    ((buildFileBlocks c ip lg fs).2).any isPost = false := by
  intro fs
  induction fs with
  | nil => rfl
  | cons f t ih =>
    simp only [buildFileBlocks]
    repeat' split
    all_goals simp [List.any_append, ih, download_no_post]

/-- `build_unfurl_block` performs no post. -/
theorem build_no_post (c : Client) (st : St) (event : Event) (ii lg : Bool) :
    ((build_unfurl_block c st event ii lg).2.2).any isPost = false := by
  unfold build_unfurl_block
  dsimp only
  simp only [List.any_append, author_no_post, rm_no_post, gcn_no_post, Bool.false_or]
  split
  · exact bfb_no_post c _ lg _
  · rfl

/-- When private-image rehosting is off, the per-attachment loop performs no
remote activity at all. -/
theorem bfb_trace_nil (c : Client) (ip lg : Bool) (h : (ip && lg) = false) :
    ∀ fs : List FileInfo, (buildFileBlocks c ip lg fs).2 = [] := by
  intro fs
  induction fs with
  | nil => rfl
  | cons f t ih =>
    simp only [buildFileBlocks]
    split
    · rw [h]
      simp [ih]
    · simp [ih]

/-- With `logger = false` the builder performs no rehoster activity. -/
theorem build_no_rehost (c : Client) (st : St) (event : Event) (ii : Bool) :
    ((build_unfurl_block c st event ii false).2.2).any isRehostAct = false := by
  unfold build_unfurl_block
  dsimp only
  simp only [List.any_append, author_no_rehost, rm_no_rehost, gcn_no_rehost, Bool.false_or]
  split
  · rw [bfb_trace_nil c _ false (by simp)]
    rfl
  · rfl

/-- The author part always contributes exactly one context block. -/
theorem author_shape (c : Client) (st : St) (event : Event) :
    ∃ el, (authorBlock c st event).1 = [Block.context el] := by
  unfold authorBlock
  split
  · dsimp only
    split
    · exact ⟨_, rfl⟩
    · exact ⟨_, rfl⟩
  · exact ⟨_, rfl⟩

/-- With no files (or inlining disabled) the builder returns exactly the
author, body and channel-label blocks. -/
theorem build_shape_nofiles (c : Client) (st : St) (event : Event) (ii lg : Bool)
    (h : (event.files.isSome && ii) = false) :
    ∃ el1 body el3, (build_unfurl_block c st event ii lg).1 =
      [Block.context el1, Block.sect body, Block.context el3] := by
  unfold build_unfurl_block
  dsimp only
  obtain ⟨el, hel⟩ := author_shape c st event
  rw [hel, h]
  split <;> split <;>
    (simp only [List.cons_append, List.nil_append, List.append_nil, Bool.false_eq_true,
       if_false]
     exact ⟨_, _, _, rfl⟩)

/-- With files present and inlining enabled the builder returns the three base
blocks followed by the per-attachment blocks in order. -/
theorem build_shape_files (c : Client) (st : St) (event : Event) (ii lg : Bool)
    (fs : List FileInfo) (hf : event.files = some fs) (hii : ii = true) :
    ∃ el1 body el3, (build_unfurl_block c st event ii lg).1 =
      [Block.context el1, Block.sect body, Block.context el3] ++
        (buildFileBlocks c (event.channel_type == some "group") lg fs).1 := by
  unfold build_unfurl_block
  dsimp only
  obtain ⟨el, hel⟩ := author_shape c st event
  rw [hel, hf, hii]
  simp only [Option.isSome_some, Bool.and_self, if_true, Option.getD_some]
  split <;> split <;>
    (simp only [List.cons_append, List.nil_append, List.append_nil]
     exact ⟨_, _, _, rfl⟩)

/-- C2: when the origin channel is the destination timeline channel itself,
`relay` performs no action at all — no remote call of any kind and no change
to `relay_map` or either cache. -/
theorem loop_prevention (ALL_TIMELINE : String) (c : Client) (st : St) (event : Event)
    (h : event.channel = ALL_TIMELINE) :
    relay ALL_TIMELINE c st event = (st, []) := by
  unfold relay
  rw [if_pos (Or.inr h)]

/-- Witness for `loop_prevention` at a concrete loop event. -/
theorem loop_prevention_witness :
    eLoop.channel = "TL" ∧ relay "TL" cOk st0 eLoop = (st0, []) :=
  ⟨rfl, loop_prevention "TL" cOk st0 eLoop rfl⟩

/-- C9: on every exit path of `download_and_reupload_file` the temporary file
is created exactly as often as it is deleted, and whenever it was created the
last action of the invocation before returning is the deletion. -/
theorem rehoster_temp_cleanup (env : RehostEnv) (f : FileInfo) :
    ((download_and_reupload_file env f).2).count Act.tmpCreate =
      ((download_and_reupload_file env f).2).count Act.tmpDelete ∧
    (Act.tmpCreate ∈ (download_and_reupload_file env f).2 →
      ((download_and_reupload_file env f).2).getLast? = some Act.tmpDelete) := by
  unfold download_and_reupload_file
  repeat' split
  all_goals refine ⟨rfl, fun h => ?_⟩
  all_goals first
    | rfl
    | simp at h

/-- Witness for `rehoster_temp_cleanup` on a concrete failing upload. -/
theorem rehoster_temp_cleanup_witness :
    Act.tmpCreate ∈ (download_and_reupload_file ⟨some 200, .exn⟩ fImage).2 ∧
    ((download_and_reupload_file ⟨some 200, .exn⟩ fImage).2).getLast? = some Act.tmpDelete :=
  ⟨by decide, (rehoster_temp_cleanup ⟨some 200, .exn⟩ fImage).2 (by decide)⟩

/-- C6 counterexample: on a concrete Slackbot private-file-share announcement
the handler does perform the origin-permalink lookup before skipping, contrary
to the claim that no router action (including permalink resolution) happens. -/
theorem slackbot_share_cex :
    (eSlackbot.subtype = some "bot_message" ∧ eSlackbot.username = some "Slackbot" ∧
      privateShareText (eSlackbot.text.getD "") = true ∧ eSlackbot.channel ≠ "TL") ∧
    Act.getPermalink eSlackbot.channel eSlackbot.ts ∈ (relay "TL" cOk st0 eSlackbot).2 := by
  decide

/-- C6 (amended): a Slackbot private-file-share announcement is never relayed —
no destination post and no state change — but the origin-permalink lookup IS
performed first; the skip happens only after that lookup, so the trace is
exactly the one permalink call. -/
theorem slackbot_share_skip (ALL_TIMELINE : String) (c : Client) (st : St) (event : Event)
    (hsub : event.subtype = some "bot_message") (husr : event.username = some "Slackbot")
    (htext : privateShareText (event.text.getD "") = true)
    (hch : event.channel ≠ ALL_TIMELINE) :
    relay ALL_TIMELINE c st event = (st, [.getPermalink event.channel event.ts]) := by
  unfold relay
  rw [if_neg (by
    rintro (⟨h1, h2⟩ | h3)
    · exact h2 husr
    · exact hch h3)]
  split
  · rfl
  · rw [if_pos ⟨hsub, husr, htext⟩]

/-- Witness for `slackbot_share_skip` at the concrete Slackbot event. -/
theorem slackbot_share_skip_witness :
    relay "TL" cOk st0 eSlackbot = (st0, [.getPermalink eSlackbot.channel eSlackbot.ts]) :=
  slackbot_share_skip "TL" cOk st0 eSlackbot rfl rfl (by decide) (by decide)

/-- C5: a reply event (thread root present and different from its own
timestamp) whose root timestamp has no `relay_map` entry produces no
destination post attempt at all and leaves `relay_map` unchanged; the handler
returns normally (it is total), so the reply is silently dropped. -/
theorem unmapped_reply_dropped (ALL_TIMELINE : String) (c : Client) (st : St) (event : Event)
    (tts : String) (h1 : event.thread_ts = some tts) (h2 : tts ≠ event.ts)
    (h3 : st.relay_map.lookup tts = none) :
    (relay ALL_TIMELINE c st event).1.relay_map = st.relay_map ∧
    ((relay ALL_TIMELINE c st event).2).any isPost = false := by
  unfold relay
  split
  · exact ⟨rfl, rfl⟩
  · split
    · exact ⟨rfl, rfl⟩
    · split
      · exact ⟨rfl, rfl⟩
      · dsimp only
        split
        · rename_i hroot
          exfalso
          rcases hroot with h | h
          · rw [h1] at h
            exact Option.noConfusion h
          · rw [h1] at h
            exact h2 (by injection h)
        · rw [h1]
          dsimp only
          rw [mp_relay_map, h3]
          dsimp only
          refine ⟨?_, ?_⟩
          · exact mp_relay_map c st _ _ _
          · simp [List.any_cons, isPost, mp_no_post]

/-- Witness for `unmapped_reply_dropped` at a concrete unmapped reply. -/
theorem unmapped_reply_dropped_witness :
    (relay "TL" cOk st0 eReply).1.relay_map = st0.relay_map ∧
    ((relay "TL" cOk st0 eReply).2).any isPost = false :=
  unmapped_reply_dropped "TL" cOk st0 eReply "99.9" rfl (by decide) rfl

/-- C8: directory-cache policy. A successful channel lookup, and a
`channel_not_found` failure (which caches a name derived from the last six
characters of the id), are cached: the second lookup issues no remote call and
returns the same value with the same state. Any other channel failure returns
"unknown" without caching, so a second call issues the remote call again.
A successful user lookup is cached the same way; a failed user lookup returns
the fallback profile uncached, so a second call retries the remote lookup. -/
theorem directory_cache_policy (c : Client) (st : St) (cid uid : String) :
    (∀ n, c.conversationsInfo cid = .ok n → st.channel_name_cache.lookup cid = none →
      get_channel_name c (get_channel_name c st cid).2.1 cid =
        ((get_channel_name c st cid).1, (get_channel_name c st cid).2.1, [])) ∧
    (c.conversationsInfo cid = .notFound → st.channel_name_cache.lookup cid = none →
      get_channel_name c (get_channel_name c st cid).2.1 cid =
        ((get_channel_name c st cid).1, (get_channel_name c st cid).2.1, []) ∧
      (get_channel_name c st cid).1 = "external-" ++ lastChars cid 6) ∧
    (c.conversationsInfo cid = .otherErr → st.channel_name_cache.lookup cid = none →
      (get_channel_name c st cid).1 = "unknown" ∧ (get_channel_name c st cid).2.1 = st ∧
      (get_channel_name c (get_channel_name c st cid).2.1 cid).2.2 =
        [.conversationsInfo cid]) ∧
    (∀ u, c.usersInfo uid = some u → st.user_info_cache.lookup uid = none →
      get_user_info c (get_user_info c st uid).2.1 uid =
        ((get_user_info c st uid).1, (get_user_info c st uid).2.1, [])) ∧
    (c.usersInfo uid = none → st.user_info_cache.lookup uid = none →
      (get_user_info c st uid).1 = ⟨some "Unknown User", some ""⟩ ∧
      (get_user_info c st uid).2.1 = st ∧
      (get_user_info c (get_user_info c st uid).2.1 uid).2.2 = [.usersInfo uid]) := by
  refine ⟨?_, ?_, ?_, ?_, ?_⟩
  · intro n hok hmiss
    simp [get_channel_name, hok, hmiss, List.lookup]
  · intro hnf hmiss
    simp [get_channel_name, hnf, hmiss, List.lookup]
  · intro herr hmiss
    simp [get_channel_name, herr, hmiss]
  · intro u hok hmiss
    simp [get_user_info, hok, hmiss, List.lookup]
  · intro herr hmiss
    simp [get_user_info, herr, hmiss]

/-- Witness for `directory_cache_policy`: a concrete successful channel lookup
is cached and a concrete failed user lookup retries. -/
theorem directory_cache_policy_witness :
    (get_channel_name cOk (get_channel_name cOk st0 "C123456").2.1 "C123456" =
      ((get_channel_name cOk st0 "C123456").1,
        (get_channel_name cOk st0 "C123456").2.1, [])) ∧
    ((get_user_info cErrU st0 "U1").1 = ⟨some "Unknown User", some ""⟩ ∧
      (get_user_info cErrU st0 "U1").2.1 = st0 ∧
      (get_user_info cErrU (get_user_info cErrU st0 "U1").2.1 "U1").2.2 =
        [.usersInfo "U1"]) :=
  ⟨(directory_cache_policy cOk st0 "C123456" "U1").1 "general" rfl rfl,
    ((directory_cache_policy cErrU st0 "C123456" "U1").2.2.2.2) rfl rfl⟩

/-- Taking uppercase/digit characters stops exactly at the closing bracket. -/
theorem takeWhile_upper (uid rest : List Char) (h : ∀ ch ∈ uid, isUpperDigit ch = true) :
    (uid ++ '>' :: rest).takeWhile isUpperDigit = uid := by
  have h39 : isUpperDigit '>' = false := by decide
  induction uid with
  | nil => simp [List.takeWhile_cons, h39]
  | cons a t ih =>
    have ha : isUpperDigit a = true := h a (by simp)
    simp only [List.cons_append, List.takeWhile_cons, ha, if_true]
    rw [ih (fun ch hch => h ch (by simp [hch]))]

/-- Dropping uppercase/digit characters stops exactly at the closing bracket. -/
theorem dropWhile_upper (uid rest : List Char) (h : ∀ ch ∈ uid, isUpperDigit ch = true) :
    (uid ++ '>' :: rest).dropWhile isUpperDigit = '>' :: rest := by
  have h39 : isUpperDigit '>' = false := by decide
  induction uid with
  | nil => simp [List.dropWhile_cons, h39]
  | cons a t ih =>
    have ha : isUpperDigit a = true := h a (by simp)
    simp only [List.cons_append, List.dropWhile_cons, ha, if_true]
    exact ih (fun ch hch => h ch (by simp [hch]))

/-- Definitional unfolding of `mentionSpan` on a list with at least two
characters. -/
theorem mentionSpan_cons2 (c1 c2 : Char) (rest : List Char) :
    mentionSpan (c1 :: c2 :: rest) =
      if c1 = '<' ∧ c2 = '@' then
        match rest.takeWhile isUpperDigit, rest.dropWhile isUpperDigit with
        | [], _ => none
        | _ :: _, c3 :: tail => if c3 = '>' then some (rest.takeWhile isUpperDigit, tail) else none
        | _, _ => none
      else none := rfl

/-- The mention regular expression matches a well-formed token exactly. -/
theorem mentionSpan_exact (uid rest : List Char) (h1 : uid ≠ [])
    (h2 : ∀ ch ∈ uid, isUpperDigit ch = true) :
    mentionSpan ('<' :: '@' :: uid ++ '>' :: rest) = some (uid, rest) := by
  have ht := takeWhile_upper uid rest h2
  have hd := dropWhile_upper uid rest h2
  obtain ⟨a, t, rfl⟩ : ∃ a t, uid = a :: t := by
    cases uid with
    | nil => exact absurd rfl h1
    | cons a t => exact ⟨a, t, rfl⟩
  simp only [List.cons_append] at ht hd ⊢
  rw [mentionSpan_cons2]
  rw [ht, hd]
  rfl

/-- Unfolding step of the scan at a mention token: the token is replaced by the
resolved name and the scan continues after it. -/
theorem rm_step_span (c : Client) (st : St) (cs ids tail : List Char)
    (hspan : mentionSpan cs = some (ids, tail)) (hcs : cs ≠ []) :
    replaceMentions c cs st =
      ('@' :: ((get_user_info c st (String.mk ids)).1.real_name.getD "Unknown").data ++
          (replaceMentions c tail (get_user_info c st (String.mk ids)).2.1).1,
        (replaceMentions c tail (get_user_info c st (String.mk ids)).2.1).2.1,
        (get_user_info c st (String.mk ids)).2.2 ++
          (replaceMentions c tail (get_user_info c st (String.mk ids)).2.1).2.2) := by
  obtain ⟨ch, rest, rfl⟩ : ∃ ch rest, cs = ch :: rest := by
    cases cs with
    | nil => exact absurd rfl hcs
    | cons ch rest => exact ⟨ch, rest, rfl⟩
  have hlen := mentionSpan_length hspan
  unfold replaceMentions
  simp only [List.length_cons, replaceMentionsAux, hspan]
  rw [rmAux_fuel c rest.length tail.length tail _ (by simp at hlen; omega) (le_refl _)]

/-- Text without mention tokens passes through the scan unchanged. -/
theorem rm_noMention_id (c : Client) : ∀ (cs : List Char) (st : St),
    noMention cs = true → (replaceMentions c cs st).1 = cs := by
  intro cs
  induction cs with
  | nil => intro st h; rfl
  | cons ch rest ih =>
    intro st h
    simp only [noMention, Bool.and_eq_true, Option.isNone_iff_eq_none] at h
    unfold replaceMentions
    simp only [List.length_cons, replaceMentionsAux, h.1]
    exact congrArg (ch :: ·) (ih st h.2)

/-- C7 counterexample: when the user-info lookup for a mention fails, the token
is replaced by "@Unknown User", not by the literal "@Unknown" the claim states. -/
theorem mention_unknown_cex :
    cErrU.usersInfo "U123" = none ∧
    (replaceMentions cErrU "<@U123>".data st0).1 = "@Unknown User".data ∧
    "@Unknown User".data ≠ "@Unknown".data := by
  decide

/-- C7 (amended): a mention token whose user-info lookup fails (and is not
cached) is replaced by the literal "@Unknown User" (the literal "@Unknown" is
reserved for a successful lookup whose profile lacks a `real_name`); the
substitution never aborts, and text without mention tokens passes through
unmodified. -/
theorem mention_fallback (c : Client) (st : St) :
    (∀ (uid : String) (rest : List Char), uid.data ≠ [] →
      (∀ ch ∈ uid.data, isUpperDigit ch = true) →
      st.user_info_cache.lookup uid = none → c.usersInfo uid = none →
      (replaceMentions c ('<' :: '@' :: uid.data ++ '>' :: rest) st).1 =
        '@' :: "Unknown User".data ++ (replaceMentions c rest st).1) ∧
    (∀ cs : List Char, noMention cs = true → (replaceMentions c cs st).1 = cs) := by
  constructor
  · intro uid rest hne hud hmiss herr
    have hspan := mentionSpan_exact uid.data rest hne hud
    have hstep := rm_step_span c st ('<' :: '@' :: uid.data ++ '>' :: rest) uid.data rest
      hspan (by simp)
    rw [hstep]
    have hmk : String.mk uid.data = uid := rfl
    rw [hmk]
    simp only [get_user_info, hmiss, herr]
    rfl
  · intro cs h
    exact rm_noMention_id c cs st h

/-- Witness for `mention_fallback` at a concrete failing lookup and a concrete
mention-free text. -/
theorem mention_fallback_witness :
    ("U9".data ≠ [] ∧ (∀ ch ∈ "U9".data, isUpperDigit ch = true) ∧
      st0.user_info_cache.lookup "U9" = none ∧ cErrU.usersInfo "U9" = none ∧
      (replaceMentions cErrU ('<' :: '@' :: "U9".data ++ '>' :: "!".data) st0).1 =
        '@' :: "Unknown User".data ++ (replaceMentions cErrU "!".data st0).1) ∧
    (noMention "hi".data = true ∧ (replaceMentions cErrU "hi".data st0).1 = "hi".data) :=
  ⟨⟨by decide, by decide, rfl, rfl,
      (mention_fallback cErrU st0).1 "U9" "!".data (by decide) (by decide) rfl rfl⟩,
    ⟨by decide, (mention_fallback cErrU st0).2 "hi".data (by decide)⟩⟩

/-- Evaluation of `isOkPost` on a permalink lookup. -/
theorem isOkPost_getPermalink (ch ts : String) :
    isOkPost (.getPermalink ch ts) = false := rfl

/-- Evaluation of `isOkPost` on a failed post. -/
theorem isOkPost_post_none (ch t : String) (th : Option String) (at1 : Option (List Block)) :
    isOkPost (.postMessage ch t th at1 none) = false := rfl

/-- Evaluation of `isOkPost` on a successful post. -/
theorem isOkPost_post_some (ch t : String) (th : Option String) (at1 : Option (List Block))
    (r : String) : isOkPost (.postMessage ch t th at1 (some r)) = true := rfl

/-- Evaluation of `isOkPost` on an unfurl request. -/
theorem isOkPost_chatUnfurl (ch ts link : String) (bs : List Block) :
    isOkPost (.chatUnfurl ch ts link bs) = false := rfl

/-- Whenever the rehoster is given a truthy private URL it creates the
temporary file. -/
theorem download_tmpCreate (env : RehostEnv) (f : FileInfo)
    (h : pyTruthy f.url_private = true) :
    Act.tmpCreate ∈ (download_and_reupload_file env f).2 := by
  unfold download_and_reupload_file
  rw [if_pos h]
  repeat' split
  all_goals simp

/-- Any action of the per-attachment loop is an action of the whole builder
(for an event whose files are processed with inlining enabled). -/
theorem build_mem_of_bfb (c : Client) (st : St) (event : Event) (lg : Bool)
    (fs : List FileInfo) (hf : event.files = some fs) (a : Act)
    (ha : a ∈ (buildFileBlocks c (event.channel_type == some "group") lg fs).2) :
    a ∈ (build_unfurl_block c st event true lg).2.2 := by
  unfold build_unfurl_block
  dsimp only
  rw [hf]
  simp [List.mem_append, ha]

/-- C3 counterexample: on a concrete public root event carrying one non-image
attachment, building the presentation with image inlining disabled emits no
per-attachment block at all (only the 3 base blocks), contrary to the claim
that a per-attachment block is still emitted for each file. -/
theorem inlining_disabled_cex :
    eFilesPub.files = some [fPlain] ∧
    (build_unfurl_block cOk st0 eFilesPub false false).1.length = 3 := by
  decide

/-- C3 (amended): with image inlining disabled the builder emits no
per-attachment blocks at all — the output is exactly the three base blocks;
per-attachment blocks appear only when inlining is enabled, and then a
non-image attachment always renders as a generic file link, with no rehoster
activity. -/
theorem attachment_blocks (c : Client) (st : St) (event : Event) (f : FileInfo) (lg : Bool) :
    (∃ el1 body el3, (build_unfurl_block c st event false lg).1 =
        [Block.context el1, Block.sect body, Block.context el3]) ∧
    (event.files = some [f] → "image/".data.isPrefixOf (f.mimetype.getD "").data = false →
      (((build_unfurl_block c st event true lg).2.2).any isRehostAct = false ∧
        ∃ el1 body el3, (build_unfurl_block c st event true lg).1 =
          [Block.context el1, Block.sect body, Block.context el3,
            Block.sect ("📎 *添付ファイル:* <" ++ pyStr f.url_private ++ "|" ++
              f.name.getD "ファイル" ++ ">")])) := by
  constructor
  · exact build_shape_nofiles c st event false lg (by simp)
  · intro hf him
    constructor
    · unfold build_unfurl_block
      dsimp only
      simp only [List.any_append, author_no_rehost, rm_no_rehost, gcn_no_rehost,
        Bool.false_or]
      rw [hf]
      simp [buildFileBlocks, him]
    · obtain ⟨el1, body, el3, hsh⟩ := build_shape_files c st event true lg [f] hf rfl
      refine ⟨el1, body, el3, ?_⟩
      rw [hsh]
      simp [buildFileBlocks, him]

/-- Witness for `attachment_blocks` at the concrete one-attachment event. -/
theorem attachment_blocks_witness :
    (∃ el1 body el3, (build_unfurl_block cOk st0 eFilesPub false false).1 =
        [Block.context el1, Block.sect body, Block.context el3]) ∧
    (((build_unfurl_block cOk st0 eFilesPub true false).2.2).any isRehostAct = false ∧
      ∃ el1 body el3, (build_unfurl_block cOk st0 eFilesPub true false).1 =
        [Block.context el1, Block.sect body, Block.context el3,
          Block.sect ("📎 *添付ファイル:* <" ++ pyStr fPlain.url_private ++ "|" ++
            fPlain.name.getD "ファイル" ++ ">")]) :=
  ⟨(attachment_blocks cOk st0 eFilesPub fPlain false).1,
    (attachment_blocks cOk st0 eFilesPub fPlain false).2 rfl (by decide)⟩

/-- C10: on a private-origin event with an image attachment and inlining
enabled, the builder invokes the rehoster only when a logger is supplied: with
`logger = false` there is no rehoster activity and the image renders as a
direct link to `permalink or url_private`; with `logger = true` (and a truthy
private URL) the rehoster runs and creates the temporary file. -/
theorem rehost_needs_logger (c : Client) (st : St) (event : Event) (f : FileInfo)
    (hpriv : event.channel_type = some "group")
    (hfiles : event.files = some [f])
    (him : "image/".data.isPrefixOf (f.mimetype.getD "").data = true) :
    (((build_unfurl_block c st event true false).2.2).any isRehostAct = false) ∧
    (∃ el1 body el3, (build_unfurl_block c st event true false).1 =
        [Block.context el1, Block.sect body, Block.context el3,
          Block.sect ("📷 *画像が添付されています*: <" ++ pyStr (pyOr f.permalink f.url_private) ++
            "|" ++ f.name.getD "ファイル" ++ ">")]) ∧
    (pyTruthy f.url_private = true →
      Act.tmpCreate ∈ ((build_unfurl_block c st event true true).2.2)) := by
  have hip : (event.channel_type == some "group") = true := by simp [hpriv]
  refine ⟨build_no_rehost c st event true, ?_, ?_⟩
  · obtain ⟨el1, body, el3, hsh⟩ := build_shape_files c st event true false [f] hfiles rfl
    refine ⟨el1, body, el3, ?_⟩
    rw [hsh]
    simp [buildFileBlocks, him, hip]
  · intro hurl
    refine build_mem_of_bfb c st event true [f] hfiles Act.tmpCreate ?_
    simp only [buildFileBlocks, him, hip, Bool.and_self, if_true]
    split
    · simp [download_tmpCreate _ _ hurl]
    · split
      · simp [download_tmpCreate _ _ hurl]
      · simp [download_tmpCreate _ _ hurl]

/-- Witness for `rehost_needs_logger` at the concrete private image event. -/
theorem rehost_needs_logger_witness :
    (((build_unfurl_block cOk st0 ePrivImg true false).2.2).any isRehostAct = false) ∧
    (∃ el1 body el3, (build_unfurl_block cOk st0 ePrivImg true false).1 =
        [Block.context el1, Block.sect body, Block.context el3,
          Block.sect ("📷 *画像が添付されています*: <" ++ pyStr (pyOr fImage.permalink fImage.url_private) ++
            "|" ++ fImage.name.getD "ファイル" ++ ">")]) ∧
    Act.tmpCreate ∈ ((build_unfurl_block cOk st0 ePrivImg true true).2.2) := by
  have h := rehost_needs_logger cOk st0 ePrivImg fImage rfl rfl (by decide)
  exact ⟨h.1, h.2.1, h.2.2 (by decide)⟩

/-- One `relay` invocation either leaves `relay_map` unchanged or conses a
single new entry keyed by the timestamp of the event itself onto it. -/
theorem relay_map_cases (ALL_TIMELINE : String) (c : Client) (st : St) (event : Event) :
    (relay ALL_TIMELINE c st event).1.relay_map = st.relay_map ∨
    ∃ newts, (relay ALL_TIMELINE c st event).1.relay_map = (event.ts, newts) :: st.relay_map := by
  unfold relay
  split
  · exact Or.inl rfl
  · split
    · exact Or.inl rfl
    · split
      · exact Or.inl rfl
      · dsimp only
        split
        · split
          · split
            · rename_i newts heq
              right
              refine ⟨newts, ?_⟩
              dsimp only
              rw [build_relay_map, mp_relay_map]
            · left
              dsimp only
              rw [build_relay_map, mp_relay_map]
          · split
            · left
              dsimp only
              rw [mp_relay_map]
            · rename_i newts heq
              right
              refine ⟨newts, ?_⟩
              dsimp only
              rw [build_relay_map]
              dsimp only
              rw [mp_relay_map]
        · split
          · left
            dsimp only
            rw [mp_relay_map]
          · split
            · left
              dsimp only
              rw [mp_relay_map]
            · split
              · left
                dsimp only
                rw [build_relay_map, mp_relay_map]
              · split
                · left
                  dsimp only
                  rw [mp_relay_map]
                · left
                  dsimp only
                  rw [build_relay_map, mp_relay_map]

/-- C1: `relay_map` entries are never removed by any event, and for a root
event an entry (keyed by the origin root timestamp) is gained if and only if
the destination post succeeded; on post failure `relay_map` is unchanged. -/
theorem relay_map_atomicity (ALL_TIMELINE : String) (c : Client) (st : St) :
    (∀ event : Event, ∀ p ∈ st.relay_map, p ∈ (relay ALL_TIMELINE c st event).1.relay_map) ∧
    (∀ event : Event, event.thread_ts = none ∨ event.thread_ts = some event.ts →
      (((relay ALL_TIMELINE c st event).1.relay_map = st.relay_map ∧
        ((relay ALL_TIMELINE c st event).2).any isOkPost = false) ∨
      (∃ newts,
        (relay ALL_TIMELINE c st event).1.relay_map = (event.ts, newts) :: st.relay_map ∧
        ((relay ALL_TIMELINE c st event).2).any isOkPost = true))) := by
  constructor
  · intro event p hp
    rcases relay_map_cases ALL_TIMELINE c st event with h | ⟨newts, h⟩
    · rw [h]; exact hp
    · rw [h]; exact List.mem_cons_of_mem _ hp
  · intro event hroot
    unfold relay
    by_cases hg : (event.subtype = some "bot_message" ∧ event.username ≠ some "Slackbot") ∨
        event.channel = ALL_TIMELINE
    · rw [if_pos hg]
      exact Or.inl ⟨rfl, rfl⟩
    · rw [if_neg hg]
      cases hperm : c.getPermalink event.channel event.ts with
      | none => exact Or.inl ⟨rfl, rfl⟩
      | some link =>
        dsimp only
        by_cases hsb : event.subtype = some "bot_message" ∧ event.username = some "Slackbot" ∧
            privateShareText (event.text.getD "") = true
        · rw [if_pos hsb]
          exact Or.inl ⟨rfl, rfl⟩
        · rw [if_neg hsb]
          rw [if_pos hroot]
          cases hip : event.channel_type == some "group" with
          | true =>
            rw [if_pos rfl]
            cases hpost : c.postMessage ALL_TIMELINE
                (make_payload c st event.channel (event.channel_type.getD "channel") link).1 none
                (some (build_unfurl_block c
                  (make_payload c st event.channel
                    (event.channel_type.getD "channel") link).2.1 event true true).1) with
            | some newts =>
              right
              refine ⟨newts, ?_, ?_⟩
              · dsimp only
                rw [build_relay_map, mp_relay_map]
              · dsimp only
                simp [List.any_append, List.any_cons, isOkPost_post_some]
            | none =>
              left
              refine ⟨?_, ?_⟩
              · dsimp only
                rw [build_relay_map, mp_relay_map]
              · dsimp only
                simp [List.any_append, List.any_cons, List.any_nil, isOkPost_getPermalink,
                  isOkPost_post_none, any_okPost_of_any_post, mp_no_post, build_no_post]
          | false =>
            rw [if_neg Bool.false_ne_true]
            cases hpost : c.postMessage ALL_TIMELINE
                (make_payload c st event.channel (event.channel_type.getD "channel") link).1
                none none with
            | none =>
              left
              refine ⟨?_, ?_⟩
              · dsimp only
                rw [mp_relay_map]
              · dsimp only
                simp [List.any_append, List.any_cons, List.any_nil, isOkPost_getPermalink,
                  isOkPost_post_none, any_okPost_of_any_post, mp_no_post]
            | some newts =>
              right
              refine ⟨newts, ?_, ?_⟩
              · dsimp only
                rw [build_relay_map]
                dsimp only
                rw [mp_relay_map]
              · dsimp only
                simp [List.any_append, List.any_cons, isOkPost_post_some]

/-- Witness for `relay_map_atomicity` at a concrete public root event. -/
theorem relay_map_atomicity_witness :
    (eRootPub.thread_ts = none ∨ eRootPub.thread_ts = some eRootPub.ts) ∧
    (((relay "TL" cOk st0 eRootPub).1.relay_map = st0.relay_map ∧
      ((relay "TL" cOk st0 eRootPub).2).any isOkPost = false) ∨
    (∃ newts,
      (relay "TL" cOk st0 eRootPub).1.relay_map = (eRootPub.ts, newts) :: st0.relay_map ∧
      ((relay "TL" cOk st0 eRootPub).2).any isOkPost = true)) :=
  ⟨Or.inl rfl, (relay_map_atomicity "TL" cOk st0).2 eRootPub (Or.inl rfl)⟩

/-- C4: for a public-origin root event (with a successful permalink lookup and
destination post) the trace is: the permalink lookup, then a text-only post
(no attachments), then an unfurl request on the same returned destination
timestamp keyed by the origin permalink; `relay_map` gains the entry for the
origin timestamp; with no attachments the unfurl carries exactly 3 blocks in
the order author (context), body (section), channel-label (context), built
with image inlining disabled. -/
theorem public_root_order (ALL_TIMELINE : String) (c : Client) (st : St) (event : Event)
    (link newts : String)
    (hch : event.channel ≠ ALL_TIMELINE)
    (hsub : event.subtype = none)
    (hpub : event.channel_type ≠ some "group")
    (hroot : event.thread_ts = none)
    (hfiles : event.files = none)
    (hperm : c.getPermalink event.channel event.ts = some link)
    (hpost : ∀ t, c.postMessage ALL_TIMELINE t none none = some newts) :
    ∃ payload a1 a2 el1 body el3,
      (relay ALL_TIMELINE c st event).2 =
        Act.getPermalink event.channel event.ts :: (a1 ++
          Act.postMessage ALL_TIMELINE payload none none (some newts) :: (a2 ++
            [Act.chatUnfurl ALL_TIMELINE newts link
              [Block.context el1, Block.sect body, Block.context el3]])) ∧
      (relay ALL_TIMELINE c st event).1.relay_map = (event.ts, newts) :: st.relay_map := by
  unfold relay
  rw [if_neg (by
    rintro (⟨hh1, hh2⟩ | hh3)
    · rw [hsub] at hh1; exact Option.noConfusion hh1
    · exact hch hh3)]
  rw [hperm]
  dsimp only
  rw [if_neg (by
    rintro ⟨hh1, hh2⟩
    rw [hsub] at hh1; exact Option.noConfusion hh1)]
  rw [if_pos (Or.inl hroot)]
  have hip : (event.channel_type == some "group") = false := by
    simp [hpub]
  rw [if_neg (by simp [hip])]
  rw [hpost]
  dsimp only
  obtain ⟨el1, body, el3, hsh⟩ :=
    build_shape_nofiles c
      (St.mk ((event.ts, newts) ::
          (make_payload c st event.channel (event.channel_type.getD "channel") link).2.1.relay_map)
        ((make_payload c st event.channel
          (event.channel_type.getD "channel") link).2.1.channel_name_cache)
        ((make_payload c st event.channel
          (event.channel_type.getD "channel") link).2.1.user_info_cache))
      event false false (by simp [hfiles])
  rw [hsh]
  refine ⟨(make_payload c st event.channel (event.channel_type.getD "channel") link).1,
    (make_payload c st event.channel (event.channel_type.getD "channel") link).2.2,
    (build_unfurl_block c
      (St.mk ((event.ts, newts) ::
          (make_payload c st event.channel (event.channel_type.getD "channel") link).2.1.relay_map)
        ((make_payload c st event.channel
          (event.channel_type.getD "channel") link).2.1.channel_name_cache)
        ((make_payload c st event.channel
          (event.channel_type.getD "channel") link).2.1.user_info_cache))
      event false false).2.2, el1, body, el3, ?_, ?_⟩
  · simp [List.cons_append, List.append_assoc]
  · rw [build_relay_map]
    dsimp only
    rw [mp_relay_map]

/-- Witness for `public_root_order` at a concrete public root event with the
always-succeeding client. -/
theorem public_root_order_witness :
    ∃ payload a1 a2 el1 body el3,
      (relay "TL" cOk st0 eRootPub).2 =
        Act.getPermalink eRootPub.channel eRootPub.ts :: (a1 ++
          Act.postMessage "TL" payload none none (some "999.000") :: (a2 ++
            [Act.chatUnfurl "TL" "999.000" "https://slack.example/p1"
              [Block.context el1, Block.sect body, Block.context el3]])) ∧
      (relay "TL" cOk st0 eRootPub).1.relay_map = (eRootPub.ts, "999.000") :: st0.relay_map :=
  public_root_order "TL" cOk st0 eRootPub "https://slack.example/p1" "999.000"
    (by decide) rfl (by decide) rfl rfl rfl (fun _ => rfl)

end MessageGather
